import Mathlib

/-!
Verification development for the Axon L7 reverse proxy / API gateway.

This file shallowly embeds the parts of the Axon source that the checked
properties are about, and proves (or refutes) each property against that
embedding.  Rust strings are represented as `List Char` (`Str`); Rust
`HashMap`s are represented as association lists whose order abstracts the
map's iteration order; Rust `Result<T, E>` becomes `Except E T` and
`Option` stays `Option`.  Functions of external crates that the source
merely calls (URL parsing, socket-address parsing, IP-address parsing,
humantime, the filesystem) are passed in as explicit function parameters,
so every embedded repository function stays executable and total.
-/

namespace Axon

/-- Rust `String` / `&str`, embedded as a list of characters. -/
abbrev Str := List Char

/-- ASCII lower-casing of one character (Rust `u8::to_ascii_lowercase`). -/
def lowerChar (c : Char) : Char :=
  if 'A' ≤ c ∧ c ≤ 'Z' then Char.ofNat (c.toNat + 32) else c

/-- Rust `str::eq_ignore_ascii_case`. -/
def eqIgnoreAsciiCase (a b : Str) : Bool :=
  a.map lowerChar == b.map lowerChar

/-- Rust `str::trim_end_matches('/')`: removes the maximal run of trailing
slashes. -/
def dropTrailingSlashes : Str → Str
  | [] => []
  | c :: cs =>
    match dropTrailingSlashes cs with
    | [] => if c == '/' then [] else [c]
    | r => c :: r

/-- Rust `str::trim_start_matches('/')`: removes the maximal run of leading
slashes. -/
def trimStartSlashes (s : Str) : Str := s.dropWhile (· == '/')

/-- Rust `str::starts_with` on strings. -/
def strStartsWith (s pre : Str) : Bool := pre.isPrefixOf s

/-- Rust `str::strip_prefix(pre).unwrap_or(s)`: the suffix after `pre` when
`pre` is a prefix of `s`, otherwise `s` unchanged. -/
def stripPrefixOr (s pre : Str) : Str :=
  if pre.isPrefixOf s then s.drop pre.length else s

/-- Rust `str::trim_matches('/')`: strips slashes from both ends. -/
def trimMatchesSlash (s : Str) : Str :=
  trimStartSlashes (dropTrailingSlashes s)

/-- Rust `str::split('/')`: always returns at least one (possibly empty)
segment. -/
def splitSlash : Str → List Str
  | [] => [[]]
  | c :: rest =>
    match splitSlash rest with
    | [] => [[]]
    | seg :: segs => if c == '/' then [] :: seg :: segs else (c :: seg) :: segs

/-- Rust `str::contains(sub)`: some suffix of `s` starts with `sub`. -/
def strContainsSub (s sub : Str) : Bool :=
  match s with
  | [] => sub.isEmpty
  | _ :: rest => sub.isPrefixOf s || strContainsSub rest sub

/-- The regex `^\d+[smh]$` used by the validator for rate-limit periods:
one or more ASCII digits followed by one of `s`, `m`, `h`. -/
def periodMatches (s : Str) : Bool :=
  match s.reverse with
  | [] => false
  | u :: rest =>
    (u == 's' || u == 'm' || u == 'h') && !rest.isEmpty && rest.all (·.isDigit)

/-- Lexicographic `≤` on strings (the order used by Rust `Vec::<String>::sort`). -/
def lexLe : Str → Str → Bool
  | [], _ => true
  | _ :: _, [] => false
  | a :: as', b :: bs =>
    if a == b then lexLe as' bs else decide (a < b)

/-- Insert into a list sorted by `lexLe`. -/
def insertLe (x : Str) : List Str → List Str
  | [] => [x]
  | y :: ys => if lexLe x y then x :: y :: ys else y :: insertLe x ys

/-- Sorting by `lexLe` (insertion sort; produces the same sorted sequence as
Rust `Vec::sort`, which is all that `collect_backends` relies on). -/
def sortStrs : List Str → List Str
  | [] => []
  | x :: xs => insertLe x (sortStrs xs)

/-- Rust `Vec::dedup`: collapse runs of adjacent equal elements. -/
def dedupAdjacent : List Str → List Str
  | [] => []
  | [x] => [x]
  | x :: y :: rest =>
    if x == y then dedupAdjacent (y :: rest) else x :: dedupAdjacent (y :: rest)

/-! ## Configuration data model (src/config/models.rs)

The route table (`ServerConfig.routes`, a `HashMap<String, RouteConfig>`) is
embedded as an association list of `(prefix, route)` pairs; the list order
stands for the map's (arbitrary) iteration order.  Each route variant also
carries the optional `host` field that the matcher and the validator read. -/

/-- The `config::models::HealthStatus`. -/
inductive HealthStatus where
  | healthy
  | unhealthy
deriving DecidableEq, Repr

/-- The `config::models::LoadBalanceStrategy`. -/
inductive LoadBalanceStrategy where
  | roundRobin
  | random
  | leastConnections
deriving DecidableEq, Repr

/-- The `config::models::RateLimitBy` (`by` is a Lean keyword, so the field that
holds it below is named `rlBy`). -/
inductive RateLimitBy where
  | ip
  | header
  | route
deriving DecidableEq, Repr

/-- The `config::models::RateLimitAlgorithm`. -/
inductive RateLimitAlgorithm where
  | tokenBucket
  | fixedWindow
  | slidingWindow
deriving DecidableEq, Repr

/-- The `config::models::MissingKeyPolicy`. -/
inductive MissingKeyPolicy where
  | allow
  | deny
deriving DecidableEq, Repr

/-- The `config::models::RateLimitConfig`. -/
structure RateLimitConfig where
  rlBy : RateLimitBy
  headerName : Option Str
  requests : Nat
  period : Str
  statusCode : Nat
  message : Str
  algorithm : RateLimitAlgorithm
  onMissingKey : MissingKeyPolicy
deriving DecidableEq, Repr

/-- The `config::models::RouteConfig` with the per-route `host` field used by
`GatewayService::find_matching_route` and the validator. -/
inductive RouteConfig where
  | static (root : Str) (host : Option Str) (rateLimit : Option RateLimitConfig)
      (middlewares : List Str)
  | redirect (target : Str) (statusCode : Option Nat) (host : Option Str)
      (rateLimit : Option RateLimitConfig) (middlewares : List Str)
  | proxy (target : Str) (pathRewrite : Option Str) (host : Option Str)
      (rateLimit : Option RateLimitConfig) (middlewares : List Str)
  | loadBalance (targets : List Str) (strategy : LoadBalanceStrategy)
      (pathRewrite : Option Str) (host : Option Str)
      (rateLimit : Option RateLimitConfig) (middlewares : List Str)
  | websocket (target : Str) (pathRewrite : Option Str) (host : Option Str)
      (rateLimit : Option RateLimitConfig) (maxFrameSize : Option Nat)
      (maxMessageSize : Option Nat) (idleTimeoutSecs : Option Nat)
      (subprotocols : Option (List Str)) (middlewares : List Str)
deriving DecidableEq, Repr

/-- The `host` field of a route (`ServerConfigValidator::get_route_host` and
the matches inside `find_matching_route`). -/
def RouteConfig.host : RouteConfig → Option Str
  | .static _ host _ _ => host
  | .redirect _ _ host _ _ => host
  | .proxy _ _ host _ _ => host
  | .loadBalance _ _ _ host _ _ => host
  | .websocket _ _ host _ _ _ _ _ _ => host

/-- The `rate_limit` field of a route (the match in `GatewayService::new` and
in `validate_single_route`). -/
def RouteConfig.rateLimit : RouteConfig → Option RateLimitConfig
  | .static _ _ rl _ => rl
  | .redirect _ _ _ rl _ => rl
  | .proxy _ _ _ rl _ => rl
  | .loadBalance _ _ _ _ rl _ => rl
  | .websocket _ _ _ rl _ _ _ _ _ => rl

/-- The `config::models::HealthCheckConfig`. -/
structure HealthCheckConfig where
  enabled : Bool
  intervalSecs : Nat
  timeoutSecs : Nat
  path : Str
  unhealthyThreshold : Nat
  healthyThreshold : Nat
deriving DecidableEq, Repr

/-- The `config::models::AcmeConfig`. -/
structure AcmeConfig where
  domains : List Str
  email : Str
  cacheDir : Str
  production : Bool
deriving DecidableEq, Repr

/-- The `config::models::TlsConfig`. -/
structure TlsConfig where
  certPath : Option Str
  keyPath : Option Str
  acme : Option AcmeConfig
deriving DecidableEq, Repr

/-- The `config::models::WafRuleConfig`. -/
structure WafRuleConfig where
  enabled : Bool
  blockMode : Bool
deriving DecidableEq, Repr

/-- The `config::models::BotDetectionConfig`. -/
structure BotDetectionConfig where
  enabled : Bool
  blockMode : Bool
  allowKnownBots : Bool
  customBadPatterns : List Str
  customGoodIdentifiers : List Str
deriving DecidableEq, Repr

/-- The `config::models::IpFilterConfig`. -/
structure IpFilterConfig where
  enabled : Bool
  whitelist : List Str
  blacklist : List Str
deriving DecidableEq, Repr

/-- The `config::models::WafConfig`. -/
structure WafConfig where
  enabled : Bool
  sqlInjection : WafRuleConfig
  xss : WafRuleConfig
  pathTraversal : WafRuleConfig
  commandInjection : WafRuleConfig
  botDetection : BotDetectionConfig
  ipFilter : IpFilterConfig
deriving DecidableEq, Repr

/-- The `config::models::ProtocolConfig` (only the fields the embedded functions
read). -/
structure ProtocolConfig where
  http2Enabled : Bool
  websocketEnabled : Bool
  http3Enabled : Bool
deriving DecidableEq, Repr

/-- The `config::models::ServerConfig`. -/
structure ServerConfig where
  listenAddr : Str
  routes : List (Str × RouteConfig)
  tls : Option TlsConfig
  healthCheck : HealthCheckConfig
  backendHealthPaths : List (Str × Str)
  protocols : ProtocolConfig
  waf : Option WafConfig
deriving DecidableEq, Repr

/-! ## Backend health state (src/core/backend.rs)

`BackendHealth` keeps its status and the two consecutive counters in atomics;
a single probe handler invocation reads and writes them sequentially, so one
invocation is embedded as a pure state transformer.  `active_connections` is
the in-flight counter that `gateway.rs` (`LeastConnections`) and
`http_handler.rs` (`inc_active_connections` / `dec_active_connections`) use.

Modelled from the spec: the `active_connections` field and its increment /
decrement / read accessors (§3 BackendHealth, §4.4 step 4) — the copy of
`src/core/backend.rs` in the tree predates them, while `gateway.rs` and
`http_handler.rs` call them. -/

structure BackendHealthState where
  status : HealthStatus
  consecutiveSuccesses : Nat
  consecutiveFailures : Nat
  activeConnections : Nat
deriving DecidableEq, Repr

/-- The `BackendHealth::new`: initial state is Healthy with zero counters. -/
def BackendHealthState.init : BackendHealthState :=
  { status := .healthy, consecutiveSuccesses := 0, consecutiveFailures := 0
    activeConnections := 0 }

/-- The `BackendHealth::mark_healthy`: set status Healthy, zero the failure
counter, and bump `consecutive_successes` by one (the method reads the
counter and stores `current + 1`). -/
def markHealthy (h : BackendHealthState) : BackendHealthState :=
  { h with status := .healthy, consecutiveFailures := 0
           consecutiveSuccesses := h.consecutiveSuccesses + 1 }

/-- The `BackendHealth::mark_unhealthy`: set status Unhealthy, zero the success
counter, and bump `consecutive_failures` by one. -/
def markUnhealthy (h : BackendHealthState) : BackendHealthState :=
  { h with status := .unhealthy, consecutiveSuccesses := 0
           consecutiveFailures := h.consecutiveFailures + 1 }

/-! ## Health checker probe handlers (src/adapters/health_checker.rs) -/

/-- The `HealthChecker::handle_health_check_success`: `fetch_add(1)` on
`consecutive_successes`, store `0` to `consecutive_failures`, then call
`mark_healthy` when the incremented count has reached `healthy_threshold`
and the status (unchanged so far) is Unhealthy. -/
def handleHealthCheckSuccess (cfg : HealthCheckConfig) (h : BackendHealthState) :
    BackendHealthState :=
  let successes := h.consecutiveSuccesses + 1
  let h' := { h with consecutiveSuccesses := successes, consecutiveFailures := 0 }
  if cfg.healthyThreshold ≤ successes ∧ h'.status = .unhealthy then
    markHealthy h'
  else
    h'

/-- The `HealthChecker::handle_health_check_failure`: `fetch_add(1)` on
`consecutive_failures`, store `0` to `consecutive_successes`, then call
`mark_unhealthy` when the incremented count has reached
`unhealthy_threshold` and the status is Healthy. -/
def handleHealthCheckFailure (cfg : HealthCheckConfig) (h : BackendHealthState) :
    BackendHealthState :=
  let failures := h.consecutiveFailures + 1
  let h' := { h with consecutiveFailures := failures, consecutiveSuccesses := 0 }
  if cfg.unhealthyThreshold ≤ failures ∧ h'.status = .healthy then
    markUnhealthy h'
  else
    h'

/-- One probe result applied to a backend's state. -/
def probeStep (cfg : HealthCheckConfig) (h : BackendHealthState)
    (isHealthy : Bool) : BackendHealthState :=
  if isHealthy then handleHealthCheckSuccess cfg h
  else handleHealthCheckFailure cfg h

/-! ## WAF IP filter (src/core/waf/ip_filter.rs)

`std::net::IpAddr` is embedded as a tagged machine integer (`u32` / `u128`
bit patterns as a `Nat`).  `IpAddr::from_str` lives in the standard library,
outside this repository, so every function that parses an address string
takes the parser as an explicit `parseIp` argument. -/

/-- The `std::net::IpAddr` as its version tag plus integer bit pattern. -/
inductive IpAddr where
  | v4 (bits : Nat)
  | v6 (bits : Nat)
deriving DecidableEq, Repr

/-- The `waf::ThreatLevel`. -/
inductive ThreatLevel where
  | low
  | medium
  | high
  | critical
deriving DecidableEq, Repr

/-- The `waf::SecurityViolation` (the `description` string is formatted for logs
only and is dropped here). -/
structure SecurityViolation where
  threatType : Str
  threatLevel : ThreatLevel
  blocked : Bool
deriving DecidableEq, Repr

/-- The `ip_filter::IpNetwork`. -/
structure IpNetwork where
  addr : IpAddr
  prefixLen : Nat
deriving DecidableEq, Repr

/-- The `IpNetwork::new`: bounds-check the prefix length for the address family. -/
def IpNetwork.new (addr : IpAddr) (prefixLen : Nat) : Option IpNetwork :=
  match addr with
  | .v4 _ => if 32 < prefixLen then none else some ⟨addr, prefixLen⟩
  | .v6 _ => if 128 < prefixLen then none else some ⟨addr, prefixLen⟩

/-- The `!0u32 << (32 - prefix_len)` truncated to 32 bits (the branch is only
taken for `prefix_len ≠ 0`). -/
def maskV4 (prefixLen : Nat) : Nat :=
  if prefixLen = 0 then 0 else (0xFFFFFFFF <<< (32 - prefixLen)) % 2 ^ 32

/-- The `!0u128 << (128 - prefix_len)` truncated to 128 bits. -/
def maskV6 (prefixLen : Nat) : Nat :=
  if prefixLen = 0 then 0
  else ((2 ^ 128 - 1) <<< (128 - prefixLen)) % 2 ^ 128

/-- The `IpNetwork::contains`: same-family masked comparison; different families
never match. -/
def IpNetwork.contains (net : IpNetwork) (ip : IpAddr) : Bool :=
  match net.addr, ip with
  | .v4 netBits, .v4 addrBits =>
    netBits &&& maskV4 net.prefixLen == addrBits &&& maskV4 net.prefixLen
  | .v6 netBits, .v6 addrBits =>
    netBits &&& maskV6 net.prefixLen == addrBits &&& maskV6 net.prefixLen
  | _, _ => false

/-- The `ip_filter::IpFilter`. -/
structure IpFilter where
  whitelist : List IpNetwork
  blacklist : List IpNetwork
  enabled : Bool
deriving DecidableEq, Repr

/-- The `IpFilter::ip_in_networks`. -/
def ipInNetworks (ip : IpAddr) (networks : List IpNetwork) : Bool :=
  networks.any (·.contains ip)

/-- The `IpFilter::check_ip`.  `Ok(())` is `none`, `Err(violation)` is `some`.
`parseIp` stands for `std::net::IpAddr::from_str`. -/
def IpFilter.checkIp (parseIp : Str → Option IpAddr) (f : IpFilter)
    (ipStr : Str) : Option SecurityViolation :=
  if !f.enabled then none
  else
    match parseIp ipStr with
    | none => none
    | some ip =>
      if !f.whitelist.isEmpty && !ipInNetworks ip f.whitelist then
        some ⟨"IP_NOT_WHITELISTED".data, .high, true⟩
      else if ipInNetworks ip f.blacklist then
        some ⟨"IP_BLACKLISTED".data, .critical, true⟩
      else
        none

/-- Rust `str::split_once('/')`: the parts before and after the first slash,
or `none` when there is no slash. -/
def splitOnceSlash : Str → Option (Str × Str)
  | [] => none
  | c :: rest =>
    if c == '/' then some ([], rest)
    else
      match splitOnceSlash rest with
      | some (l, r) => some (c :: l, r)
      | none => none

/-- Decimal `u8` parse (`str::parse::<u8>`) used for the prefix length. -/
def parseDecimalU8 (ds : Str) : Option Nat :=
  if ds.isEmpty || !ds.all (·.isDigit) then none
  else
    let n := ds.foldl (fun acc c => acc * 10 + (c.toNat - '0'.toNat)) 0
    if n ≤ 255 then some n else none

/-- The `IpNetwork::parse`: split on the first `/`; with a prefix part, parse the
address and the decimal prefix length and bounds-check via `IpNetwork::new`;
without one, a bare address gets `/32` or `/128`. -/
def IpNetwork.parse (parseIp : Str → Option IpAddr) (s : Str) :
    Option IpNetwork :=
  match splitOnceSlash s with
  | some (ipStr, prefixStr) =>
    match parseIp ipStr, parseDecimalU8 prefixStr with
    | some addr, some p => IpNetwork.new addr p
    | _, _ => none
  | none =>
    match parseIp s with
    | some addr =>
      match addr with
      | .v4 _ => some ⟨addr, 32⟩
      | .v6 _ => some ⟨addr, 128⟩
    | none => none

/-! ## WAF engine (src/core/waf/engine.rs)

The regex-based detectors (`sql_injection.rs`, `xss_detector.rs`,
`command_injection.rs`, `path_traversal.rs`) and the bot detector live in
their own modules and are driven entirely through their `check` methods; the
engine is embedded parametrically in those check functions, keeping the
engine's own composition logic (order, enabled-gating, the bot detector's
block/log split) concrete. -/

/-- An abstract request as the detectors see it: URI string form, headers
(name/value pairs) and the optionally buffered body. -/
structure WafRequest where
  uri : Str
  headers : List (Str × Str)
  body : Option (List Nat)
deriving DecidableEq, Repr

/-- A detector's `check` method (`SecurityRule::check`), abstracted. -/
abbrev DetectorCheck := WafRequest → Option SecurityViolation

/-- The `engine::WafEngine`: each detector slot is `Some` exactly when its rule
is enabled in the config. -/
structure WafEngine where
  sqlInjection : Option DetectorCheck
  xss : Option DetectorCheck
  commandInjection : Option DetectorCheck
  pathTraversal : Option DetectorCheck
  botDetector : Option DetectorCheck
  ipFilter : Option IpFilter
  enabled : Bool

/-- Run one plain detector slot: any violation aborts with `Err`
(`sql / xss / command-injection / path-traversal` in `check_request` return
the violation whether or not it is blocking). -/
def runDetector (slot : Option DetectorCheck) (req : WafRequest) :
    Option SecurityViolation :=
  match slot with
  | none => none
  | some check => check req

/-- The four content detectors of `check_request`, in engine order: SQL
injection, XSS, command injection, path traversal. -/
def WafEngine.checkContent (e : WafEngine) (req : WafRequest) :
    Option SecurityViolation :=
  match runDetector e.sqlInjection req with
  | some v => some v
  | none =>
    match runDetector e.xss req with
    | some v => some v
    | none =>
      match runDetector e.commandInjection req with
      | some v => some v
      | none => runDetector e.pathTraversal req

/-- The detector cascade of `check_request` after the IP filter.  The bot
detector only aborts when its violation is blocking (log-only violations
fall through), unlike the content detectors. -/
def WafEngine.checkDetectors (e : WafEngine) (req : WafRequest) :
    Option SecurityViolation :=
  match e.botDetector with
  | some check =>
    match check req with
    | some violation =>
      if violation.blocked then some violation else e.checkContent req
    | none => e.checkContent req
  | none => e.checkContent req

/-- The `WafEngine::check_request`: disabled engine passes everything; otherwise
IP filter first, then the detector cascade. -/
def WafEngine.checkRequest (parseIp : Str → Option IpAddr) (e : WafEngine)
    (req : WafRequest) (clientIp : Option Str) : Option SecurityViolation :=
  if !e.enabled then none
  else
    match e.ipFilter, clientIp with
    | some filter, some ip =>
      match filter.checkIp parseIp ip with
      | some violation => some violation
      | none => e.checkDetectors req
    | _, _ => e.checkDetectors req

/-- The `WafEngine::from_config`, parametric in the detector check functions and
the address parser.  Building the IP filter fails (`None` engine at the
gateway) when a whitelist or blacklist entry does not parse. -/
def WafEngine.fromConfig (parseIp : Str → Option IpAddr)
    (sqlCheck xssCheck cmdCheck pathCheck botCheck : Bool → DetectorCheck)
    (cfg : WafConfig) : Option WafEngine :=
  let parseAll (entries : List Str) : Option (List IpNetwork) :=
    entries.foldr
      (fun e acc =>
        match IpNetwork.parse parseIp e, acc with
        | some n, some ns => some (n :: ns)
        | _, _ => none)
      (some [])
  let ipFilter? : Option (Option IpFilter) :=
    if cfg.ipFilter.enabled then
      match parseAll cfg.ipFilter.whitelist, parseAll cfg.ipFilter.blacklist with
      | some wl, some bl => some (some ⟨wl, bl, cfg.ipFilter.enabled⟩)
      | _, _ => none
    else
      some none
  match ipFilter? with
  | none => none
  | some ipFilter =>
    some
      { sqlInjection :=
          if cfg.sqlInjection.enabled then
            some (sqlCheck cfg.sqlInjection.blockMode) else none
        xss := if cfg.xss.enabled then some (xssCheck cfg.xss.blockMode) else none
        commandInjection :=
          if cfg.commandInjection.enabled then
            some (cmdCheck cfg.commandInjection.blockMode) else none
        pathTraversal :=
          if cfg.pathTraversal.enabled then
            some (pathCheck cfg.pathTraversal.blockMode) else none
        botDetector :=
          if cfg.botDetection.enabled then
            some (botCheck cfg.botDetection.blockMode) else none
        ipFilter := ipFilter
        enabled := cfg.enabled }

/-! ## Route rate limiter construction (src/core/rate_limiter.rs)

`RouteRateLimiter::new` validates the configuration and picks the limiter
variant; the governor quota state itself is runtime data and is not needed by
any checked property.  `humantime::parse_duration` is external and passed in
as `parseDuration` (nanoseconds on success); `http::StatusCode::from_u16`
accepts exactly 100..=999. -/

/-- The variant (and, for `Header`, the required header name) produced by
`RouteRateLimiter::new`. -/
inductive RouteRateLimiterKind where
  | route
  | ip
  | header (headerName : Str)
deriving DecidableEq, Repr

/-- The `http::StatusCode::from_u16` succeeds exactly for 100..=999. -/
def statusCodeOk (code : Nat) : Bool := 100 ≤ code && code ≤ 999

/-- The `http::HeaderName::from_bytes`: lowercase letters, digits and `-` (the
token subset that matters here; real header-name validation is slightly
wider but agrees on every string this file evaluates). -/
def headerNameOk (s : Str) : Bool :=
  !s.isEmpty && s.all (fun c => c.isAlpha || c.isDigit || c == '-' || c == '_')

/-- The `RouteRateLimiter::new`: period must parse (humantime), `requests as u32`
must be non-zero, the status code must be valid, and the `Header` variant
requires a `header_name` that is a valid header name. -/
def RouteRateLimiter.new (parseDuration : Str → Option Nat)
    (config : RateLimitConfig) : Except Str RouteRateLimiterKind :=
  match parseDuration config.period with
  | none => .error "invalid period".data
  | some _periodNanos =>
    if config.requests % 2 ^ 32 = 0 then
      .error "requests must be greater than 0".data
    else if !statusCodeOk config.statusCode then
      .error "invalid status code".data
    else
      match config.rlBy with
      | .route => .ok .route
      | .ip => .ok .ip
      | .header =>
        match config.headerName with
        | none => .error "header name is required".data
        | some name =>
          if headerNameOk name then .ok (.header name)
          else .error "invalid header name".data

/-! ## Gateway service (src/core/gateway.rs) -/

/-- The `BackendUrl::new` succeeds exactly when the string starts with
`http://` or `https://`. -/
def backendUrlOk (url : Str) : Bool :=
  strStartsWith url "https://".data || strStartsWith url "http://".data

/-- The `GatewayService::collect_backends`: flat-map LoadBalance `targets` and
Proxy `target` over all route values (every other kind contributes nothing),
then sort and dedup. -/
def collectBackends (routes : List (Str × RouteConfig)) : List Str :=
  let backends :=
    routes.flatMap fun pr =>
      match pr.2 with
      | .loadBalance targets _ _ _ _ _ => targets
      | .proxy target _ _ _ _ => [target]
      | _ => []
  dedupAdjacent (sortStrs backends)

/-- The keys of the backend-health map that `GatewayService::new` builds:
each collected backend whose URL passes `BackendUrl::new` gets an entry
(invalid URLs are logged and skipped). -/
def registryKeys (routes : List (Str × RouteConfig)) : List Str :=
  (collectBackends routes).filter backendUrlOk

/-- The per-prefix rate limiters that `GatewayService::new` builds: for each
route that declares a rate limit, `RouteRateLimiter::new`; construction
errors are logged and the limiter is skipped. -/
def buildRateLimiters (parseDuration : Str → Option Nat)
    (routes : List (Str × RouteConfig)) : List (Str × RouteRateLimiterKind) :=
  routes.foldr
    (fun pr acc =>
      match pr.2.rateLimit with
      | none => acc
      | some rateCfg =>
        match RouteRateLimiter.new parseDuration rateCfg with
        | .ok limiter => (pr.1, limiter) :: acc
        | .error _ => acc)
    []

/-- The host filter of the first pass of `find_matching_route`: the route
must declare a host and it must equal the request host ASCII
case-insensitively (no request host ⇒ no match). -/
def hostFilterMatches (routeHost : Option Str) (reqHost : Option Str) : Bool :=
  match routeHost with
  | some rh =>
    match reqHost with
    | some q => eqIgnoreAsciiCase rh q
    | none => false
  | none => false

/-- First-pass candidates: prefix is a prefix of the path and the declared
host matches the request host. -/
def hostCandidates (routes : List (Str × RouteConfig)) (path : Str)
    (host : Option Str) : List (Str × RouteConfig) :=
  routes.filter fun pr =>
    strStartsWith path pr.1 && hostFilterMatches pr.2.host host

/-- Second-pass candidates: prefix is a prefix of the path and the route
declares no host. -/
def noHostCandidates (routes : List (Str × RouteConfig)) (path : Str) :
    List (Str × RouteConfig) :=
  routes.filter fun pr =>
    strStartsWith path pr.1 && pr.2.host.isNone

/-- The `Iterator::max_by_key(|(prefix, _)| prefix.len())`: the element with the
maximal prefix length (on ties Rust keeps the later element; this recursion
keeps the later element of the tail on ties, which agrees). -/
def maxByPrefixLen : List (Str × RouteConfig) → Option (Str × RouteConfig)
  | [] => none
  | x :: xs =>
    match maxByPrefixLen xs with
    | none => some x
    | some m => if m.1.length < x.1.length then some x else some m

/-- The `GatewayService::find_matching_route`: longest-prefix among host-matched
routes, falling back to longest-prefix among host-less routes. -/
def findMatchingRoute (routes : List (Str × RouteConfig)) (path : Str)
    (host : Option Str) : Option (Str × RouteConfig) :=
  match maxByPrefixLen (hostCandidates routes path host) with
  | some pr => some pr
  | none => maxByPrefixLen (noHostCandidates routes path)

/-- A snapshot of the gateway's runtime backend-health map: the association
of tracked backend URLs to their current state. -/
abbrev BackendHealthMap := List (Str × BackendHealthState)

/-- Map lookup (`scc::HashMap::get_async` keyed by the URL string). -/
def healthLookup (m : BackendHealthMap) (target : Str) :
    Option BackendHealthState :=
  (m.find? (fun e => e.1 == target)).map (·.2)

/-- The `GatewayService::get_backend_health_status`: Healthy when untracked. -/
def getBackendHealthStatus (m : BackendHealthMap) (target : Str) :
    HealthStatus :=
  match healthLookup m target with
  | some h => h.status
  | none => .healthy

/-- The `GatewayService::get_healthy_backends`: everything when health checking
is disabled, else the targets whose looked-up status is Healthy. -/
def getHealthyBackends (healthCheckEnabled : Bool) (m : BackendHealthMap)
    (targets : List Str) : List Str :=
  if !healthCheckEnabled then targets
  else targets.filter (fun t => getBackendHealthStatus m t == .healthy)

/-- The `LeastConnections` loop of `select_backend`: scan the healthy list,
keeping the first backend whose tracked `active_connections` is strictly
below the running minimum (untracked backends are skipped); `usize::MAX` is
the initial minimum. -/
def leastConnectionsLoop (m : BackendHealthMap) :
    List Str → Option Str → Nat → Option Str
  | [], best, _ => best
  | b :: rest, best, minConns =>
    match healthLookup m b with
    | some h =>
      if h.activeConnections < minConns then
        leastConnectionsLoop m rest (some b) h.activeConnections
      else
        leastConnectionsLoop m rest best minConns
    | none => leastConnectionsLoop m rest best minConns

/-- The `usize::MAX` on a 64-bit host. -/
def usizeMax : Nat := 2 ^ 64 - 1

/-- The `GatewayService::select_backend`: filter to healthy backends, return
`None` when that set is empty, then apply the strategy.  The process-global
round-robin counter value and the random draw are inputs (`rr`, `seed`); the
code's `COUNTER.fetch_add(1) % len` and `random_range(0..len)` both produce
an index below the healthy count, which `seed % len` models. -/
def selectBackend (healthCheckEnabled : Bool) (m : BackendHealthMap)
    (rr seed : Nat) (targets : List Str)
    (strategy : Option LoadBalanceStrategy) : Option Str :=
  let healthyBackends := getHealthyBackends healthCheckEnabled m targets
  if healthyBackends.isEmpty then none
  else
    match strategy.getD .roundRobin with
    | .roundRobin => healthyBackends.get? (rr % healthyBackends.length)
    | .random => healthyBackends.get? (seed % healthyBackends.length)
    | .leastConnections =>
      match leastConnectionsLoop m healthyBackends none usizeMax with
      | some best => some best
      | none => healthyBackends.head?

/-! ## Configuration validator (src/config/validation.rs)

External collaborators of the validator are passed in as a bundle of check
functions: `std::net::SocketAddr::from_str` (`sockAddrOk`),
`url::Url::parse` (`urlParse`, reduced to the scheme and host presence the
validator reads), `Path::exists` (`pathExists`), and the compiled hostname
regex (`hostRegexOk`).  Error messages are abbreviated to their error class;
only which errors occur matters to any property. -/

/-- The `validation::ValidationError` (messages reduced to the offending field /
class). -/
inductive ValidationError where
  | missingField (field : Str)
  | invalidField (field : Str)
  | invalidListenAddress (address : Str)
  | invalidTls
  | routeConflict (path1 path2 : Str)
deriving DecidableEq, Repr

/-- What the validator reads out of `url::Url::parse`: the scheme and
whether a host is present. -/
structure UrlInfo where
  scheme : Str
  hasHost : Bool
deriving DecidableEq, Repr

/-- The validator's external collaborators. -/
structure ValidatorExternals where
  sockAddrOk : Str → Bool
  urlParse : Str → Option UrlInfo
  pathExists : Str → Bool
  hostRegexOk : Str → Bool

/-- The `ServerConfigValidator::validate_listen_address`. -/
def validateListenAddress (ext : ValidatorExternals) (address : Str) :
    List ValidationError :=
  if !ext.sockAddrOk address then [.invalidListenAddress address] else []

/-- The `ServerConfigValidator::validate_url`: parse, require `http`/`https`
scheme and a host. -/
def validateUrl (ext : ValidatorExternals) (url : Str) (context : Str) :
    List ValidationError :=
  match ext.urlParse url with
  | none => [.invalidField context]
  | some u =>
    if u.scheme != "http".data && u.scheme != "https".data then
      [.invalidField context]
    else if !u.hasHost then [.invalidField context]
    else []

/-- The `ServerConfigValidator::validate_websocket_url`: `ws`/`wss` scheme and a
host. -/
def validateWebsocketUrl (ext : ValidatorExternals) (url : Str)
    (context : Str) : List ValidationError :=
  match ext.urlParse url with
  | none => [.invalidField context]
  | some u =>
    if u.scheme != "ws".data && u.scheme != "wss".data then
      [.invalidField context]
    else if !u.hasHost then [.invalidField context]
    else []

/-- The `ServerConfigValidator::validate_rate_limit`: rejects `requests == 0`
and periods not matching `^\d+[smh]$` — nothing else. -/
def validateRateLimit (path : Str) (config : RateLimitConfig) :
    List ValidationError :=
  if config.requests = 0 then [.invalidField (path ++ " rate_limit.requests".data)]
  else if !periodMatches config.period then
    [.invalidField (path ++ " rate_limit.period".data)]
  else []

/-- The `ServerConfigValidator::validate_path_rewrite`: non-empty and starting
with `/`. -/
def validatePathRewrite (path : Str) (rewrite : Str) : List ValidationError :=
  if rewrite.isEmpty then [.invalidField (path ++ " path_rewrite".data)]
  else if !strStartsWith rewrite "/".data then
    [.invalidField (path ++ " path_rewrite".data)]
  else []

/-- The `ServerConfigValidator::validate_host`: non-empty, no `://`, and
matching the hostname regex. -/
def validateHost (ext : ValidatorExternals) (host : Str) (path : Str) :
    List ValidationError :=
  if host.isEmpty then [.invalidField (path ++ " host".data)]
  else if strContainsSub host "://".data then [.invalidField (path ++ " host".data)]
  else if !ext.hostRegexOk host then [.invalidField (path ++ " host".data)]
  else []

/-- The `validate_host` applied to an optional host field. -/
def validateOptHost (ext : ValidatorExternals) (host : Option Str)
    (path : Str) : List ValidationError :=
  match host with
  | some h => validateHost ext h path
  | none => []

/-- The `ServerConfigValidator::is_valid_redirect_status_code`. -/
def isValidRedirectStatusCode (code : Nat) : Bool :=
  code = 301 || code = 302 || code = 307 || code = 308

/-- The `path_rewrite` field the validator reads (absent for Static and
Redirect routes). -/
def RouteConfig.pathRewrite : RouteConfig → Option Str
  | .static _ _ _ _ => none
  | .redirect _ _ _ _ _ => none
  | .proxy _ rw _ _ _ => rw
  | .loadBalance _ _ rw _ _ _ => rw
  | .websocket _ rw _ _ _ _ _ _ _ => rw

/-- The `ServerConfigValidator::validate_single_route`: path must start with
`/`; then the kind-specific checks; then the rate limit; then the path
rewrite.  Returns every error found. -/
def validateSingleRoute (ext : ValidatorExternals) (path : Str)
    (config : RouteConfig) : List ValidationError :=
  let pathErrs :=
    if !strStartsWith path "/".data then
      [ValidationError.invalidField (path ++ " route path".data)]
    else []
  let kindErrs :=
    match config with
    | .proxy target _ host _ _ =>
      validateUrl ext target (path ++ " target".data) ++
        validateOptHost ext host path
    | .loadBalance targets _ _ host _ _ =>
      (if targets.isEmpty then
        [ValidationError.invalidField (path ++ " targets".data)]
      else
        targets.flatMap fun t => validateUrl ext t (path ++ " target".data)) ++
        validateOptHost ext host path
    | .static root host _ _ =>
      (if !ext.pathExists root then
        [ValidationError.invalidField (path ++ " root".data)]
      else []) ++ validateOptHost ext host path
    | .redirect target statusCode host _ _ =>
      (if strStartsWith target "http://".data ||
          strStartsWith target "https://".data then
        validateUrl ext target (path ++ " redirect target".data)
      else []) ++
        (match statusCode with
        | some code =>
          if !isValidRedirectStatusCode code then
            [ValidationError.invalidField (path ++ " redirect status_code".data)]
          else []
        | none => []) ++
        validateOptHost ext host path
    | .websocket target _ host _ maxFrameSize maxMessageSize _ _ _ =>
      validateWebsocketUrl ext target (path ++ " websocket target".data) ++
        (match maxFrameSize with
        | some n =>
          if n = 0 then
            [ValidationError.invalidField (path ++ " max_frame_size".data)]
          else []
        | none => []) ++
        (match maxMessageSize with
        | some n =>
          if n = 0 then
            [ValidationError.invalidField (path ++ " max_message_size".data)]
          else []
        | none => []) ++
        validateOptHost ext host path
  let rateErrs :=
    match config.rateLimit with
    | some rl => validateRateLimit path rl
    | none => []
  let rewriteErrs :=
    match config.pathRewrite with
    | some rw => validatePathRewrite path rw
    | none => []
  pathErrs ++ kindErrs ++ rateErrs ++ rewriteErrs

/-- The `ServerConfigValidator::validate_health_check_config`: when enabled, all
four numeric fields must be positive and the path must be non-blank and
start with `/`. -/
def validateHealthCheckConfig (config : HealthCheckConfig) :
    List ValidationError :=
  if !config.enabled then []
  else
    (if config.intervalSecs = 0 then
      [ValidationError.invalidField "health_check.interval_secs".data]
    else []) ++
    (if config.timeoutSecs = 0 then
      [ValidationError.invalidField "health_check.timeout_secs".data]
    else []) ++
    (if config.unhealthyThreshold = 0 then
      [ValidationError.invalidField "health_check.unhealthy_threshold".data]
    else []) ++
    (if config.healthyThreshold = 0 then
      [ValidationError.invalidField "health_check.healthy_threshold".data]
    else []) ++
    (if (config.path.dropWhile (· == ' ')).isEmpty then
      [ValidationError.invalidField "health_check.path".data]
    else if !strStartsWith config.path "/".data then
      [ValidationError.invalidField "health_check.path".data]
    else [])

/-- The `ServerConfigValidator::validate_tls_config`: a manual cert/key pair
whose files exist, or else an ACME block with domains and a contact email. -/
def validateTlsConfig (ext : ValidatorExternals) (config : TlsConfig) :
    List ValidationError :=
  match config.certPath, config.keyPath with
  | some cert, some key =>
    if !ext.pathExists cert then [.invalidTls]
    else if !ext.pathExists key then [.invalidTls]
    else []
  | _, _ =>
    match config.acme with
    | some acme =>
      if acme.domains.isEmpty then [.invalidTls]
      else if (acme.email.dropWhile (· == ' ')).isEmpty then [.invalidTls]
      else []
    | none => [.invalidTls]

/-- The `ServerConfigValidator::paths_conflict`: equal paths conflict; otherwise
compare the leading segments (paths trimmed of `/` at both ends, split on
`/`) up to the shorter length. -/
def pathsConflict (path1 path2 : Str) : Bool :=
  if path1 == path2 then true
  else
    let p1 := splitSlash (trimMatchesSlash path1)
    let p2 := splitSlash (trimMatchesSlash path2)
    let minLen := min p1.length p2.length
    p1.take minLen == p2.take minLen

/-- The conflict check for one ordered pair of route entries
(`check_route_conflicts` inner loop body): same path with the same
lower-cased host is a duplicate; different host-less paths that conflict as
prefixes are a conflict. -/
def pairConflict (e1 e2 : Str × Option Str) : List ValidationError :=
  if e1.1 == e2.1 then
    if e1.2.map (List.map lowerChar) == e2.2.map (List.map lowerChar) then
      [.routeConflict e1.1 e2.1]
    else []
  else if e1.2.isNone && e2.2.isNone && pathsConflict e1.1 e2.1 then
    [.routeConflict e1.1 e2.1]
  else []

/-- The `ServerConfigValidator::check_route_conflicts`: every unordered pair of
(path, host) entries is checked once. -/
def checkRouteConflicts (routes : List (Str × RouteConfig)) :
    List ValidationError :=
  let entries := routes.map fun pr => (pr.1, pr.2.host)
  let rec pairErrors : List (Str × Option Str) → List ValidationError
    | [] => []
    | e :: rest => rest.flatMap (pairConflict e) ++ pairErrors rest
  pairErrors entries

/-- The `ServerConfigValidator::validate`: accumulate the listen-address, route,
health-check, TLS and conflict errors; `Ok` exactly when none occurred. -/
def ServerConfigValidator.validate (ext : ValidatorExternals)
    (config : ServerConfig) : Except (List ValidationError) Unit :=
  let errors :=
    validateListenAddress ext config.listenAddr ++
    (if config.routes.isEmpty then [ValidationError.missingField "routes".data]
     else config.routes.flatMap fun pr => validateSingleRoute ext pr.1 pr.2) ++
    validateHealthCheckConfig config.healthCheck ++
    (match config.tls with
     | some tls => validateTlsConfig ext tls
     | none => []) ++
    checkRouteConflicts config.routes
  if errors.isEmpty then .ok () else .error errors

/-! ## HTTP handler: proxy path rewriting (src/adapters/http_handler.rs,
`proxy_request_to_backend`) -/

/-- The `normalise_leading` closure: ensure a non-empty segment starts with
exactly one leading `/` (empty stays empty). -/
def normaliseLeading (s : Str) : Str :=
  if s.isEmpty then []
  else if strStartsWith s "/".data then s
  else '/' :: s

/-- The rewritten path when the route declares `path_rewrite`: base is `/`
itself or the leading-normalised, trailing-slash-stripped rewrite; a
remainder that is empty or `/` yields the base alone, anything else is
joined with a single `/` after stripping the remainder's leading slashes. -/
def rewrittenPathWithRewrite (rewrite remainingPath : Str) : Str :=
  let base :=
    if rewrite == "/".data then "/".data
    else normaliseLeading (dropTrailingSlashes rewrite)
  if remainingPath.isEmpty || remainingPath == "/".data then base
  else
    let remaining := trimStartSlashes remainingPath
    if base == "/".data then '/' :: remaining
    else base ++ '/' :: remaining

/-- The outbound path of `proxy_request_to_backend`: with a rewrite, apply
`rewrittenPathWithRewrite` to the path after the matched prefix
(`strip_prefix(&route_prefix).unwrap_or(path)`); without one, the original
path. -/
def rewrittenPath (pathRewrite : Option Str) (routePrefix path : Str) : Str :=
  match pathRewrite with
  | some rewrite => rewrittenPathWithRewrite rewrite (stripPrefixOr path routePrefix)
  | none => path

/-- The constructed backend URI: backend without trailing slashes, the
rewritten path, and `?query` when the original URI had a query. -/
def buildBackendUri (backend rewritten : Str) (query : Option Str) : Str :=
  match query with
  | some q => dropTrailingSlashes backend ++ rewritten ++ '?' :: q
  | none => dropTrailingSlashes backend ++ rewritten

/-! ## HTTP handler: proxy dispatch with connection accounting
(src/adapters/http_handler.rs, `proxy_request_to_backend`)

The function is embedded as a step function that, besides its result,
reports the net change it makes to the chosen backend's
`active_connections` counter, so the pairing of the increment before
dispatch with the decrement after it becomes checkable on every control
path.  `Uri::parse` on the constructed URI and `HeaderValue::parse` on the
three forwarded header values are external (`http` crate) and passed in as
predicates. -/

/-- The outcome of `proxy_request_to_backend`. -/
inductive ProxyOutcome where
  /-- The `No matching route found` error. -/
  | errNoRoute
  /-- The `Route is not a proxy or load balance route` error. -/
  | errNotProxy
  /-- The `No healthy backends available` error. -/
  | errNoBackend
  /-- The `Failed to parse backend URI` error (early `?` return). -/
  | errUriParse
  /-- A forwarded-header value failed to parse (early `?` return). -/
  | errHeaderParse
  /-- The backend was dispatched; `ok` is whether the HTTP client succeeded
  (failures map to 502/504 responses, still an `Ok` return). -/
  | response (ok : Bool)
deriving DecidableEq, Repr

/-- The request data `proxy_request_to_backend` reads. -/
structure ProxyRequest where
  path : Str
  query : Option Str
  hostHeader : Option Str
  existingXff : Option Str
  clientIp : Option Str
deriving DecidableEq, Repr

/-- External parsers used on the constructed URI and header values. -/
structure ProxyExternals where
  uriParseOk : Str → Bool
  headerValueOk : Str → Bool

/-- The `targets / strategy / path_rewrite` triple extracted from the
matched route (the match inside `proxy_request_to_backend`). -/
def proxyRouteData (rc : RouteConfig) :
    Option (List Str × Option LoadBalanceStrategy × Option Str) :=
  match rc with
  | .proxy target rewrite _ _ _ => some ([target], none, rewrite)
  | .loadBalance targets strategy rewrite _ _ _ =>
    some (targets, some strategy, rewrite)
  | _ => none

/-- The `X-Forwarded-For` value inserted for a client IP: appended to an
existing header value when present, else the IP alone (the code falls back
to the bare IP when the existing value is not visible ASCII; that branch is
folded into `existingXff = none`). -/
def xffValue (existingXff : Option Str) (ip : Str) : Str :=
  match existingXff with
  | some existing => existing ++ ", ".data ++ ip
  | none => ip

/-- The `proxy_request_to_backend`, returning the outcome together with the net
change to the selected backend's `active_connections` (`+1` per increment,
`-1` per decrement; `0` when the backend is not in the health map, where the
code's `if let Some(entry)` guards skip both). -/
def proxyRequestToBackend (ext : ProxyExternals)
    (routes : List (Str × RouteConfig)) (healthCheckEnabled : Bool)
    (m : BackendHealthMap) (rr seed : Nat) (req : ProxyRequest)
    (sendOk : Bool) : ProxyOutcome × Int :=
  match findMatchingRoute routes req.path req.hostHeader with
  | none => (.errNoRoute, 0)
  | some (routePrefix, routeConfig) =>
    match proxyRouteData routeConfig with
    | none => (.errNotProxy, 0)
    | some (targets, strategy, pathRewrite) =>
      match selectBackend healthCheckEnabled m rr seed targets strategy with
      | none => (.errNoBackend, 0)
      | some backend =>
        -- Increment active connections (guarded on map membership).
        let tracked := (healthLookup m backend).isSome
        let acct : Int := if tracked then 1 else 0
        let rewritten := rewrittenPath pathRewrite routePrefix req.path
        let backendUri := buildBackendUri backend rewritten req.query
        if !ext.uriParseOk backendUri then (.errUriParse, acct)
        else
          let xffOk :=
            match req.clientIp with
            | some ip => ext.headerValueOk (xffValue req.existingXff ip)
            | none => true
          if !xffOk then (.errHeaderParse, acct)
          else if !ext.headerValueOk "http".data then (.errHeaderParse, acct)
          else
            let fwdHost :=
              match req.hostHeader with
              | some h => h
              | none => "unknown".data
            if !ext.headerValueOk fwdHost then (.errHeaderParse, acct)
            else
              -- Dispatch, then decrement (same map-membership guard).
              let acct := acct - (if tracked then 1 else 0)
              (.response sendOk, acct)

/-! ## HTTP handler: request routing (src/adapters/http_handler.rs,
`route_request`) -/

/-- The inbound request as `route_request` reads it. -/
structure InboundRequest where
  path : Str
  query : Option Str
  headers : List (Str × Str)
  bodyLen : Nat
  clientIp : Option Str
deriving DecidableEq, Repr

/-- The `HttpHandler::extract_raw_host`: the `Host` header value. -/
def extractRawHost (headers : List (Str × Str)) : Option Str :=
  (headers.find? (fun h => eqIgnoreAsciiCase h.1 "host".data)).map (·.2)

/-- The `HttpHandler::extract_routing_host`: the `Host` header up to the first
`:` (`split(':').next()`). -/
def extractRoutingHost (headers : List (Str × Str)) : Option Str :=
  (extractRawHost headers).map fun host => host.takeWhile (· != ':')

/-- The `strip_prefix` middleware body: when the prefix strips, the new path
(substituting `/` for empty); the rebuilt URI keeps the path unless the
strip does not apply. -/
def applyStripPfx (pfx path : Str) : Str :=
  if pfx.isPrefixOf path then
    let newPath := path.drop pfx.length
    if newPath.isEmpty then "/".data else newPath
  else path

/-- The middleware loop of `route_request`: only `strip_prefix` changes the
request (`cors` and unknown names are no-ops). -/
def applyMiddlewares (pfx : Str) (middlewares : List Str) (path : Str) :
    Str :=
  middlewares.foldl
    (fun p mw => if mw == "strip_prefix".data then applyStripPfx pfx p else p)
    path

/-- The middleware list of a route. -/
def RouteConfig.middlewares : RouteConfig → List Str
  | .static _ _ _ mws => mws
  | .redirect _ _ _ _ mws => mws
  | .proxy _ _ _ _ mws => mws
  | .loadBalance _ _ _ _ _ mws => mws
  | .websocket _ _ _ _ _ _ _ _ mws => mws

/-- How `route_request` resolves: the WAF's 413/403, one of the three
built-in endpoints, a rate-limited response, a dispatch to the matched
route's kind handler (carrying the post-middleware path), or 404. -/
inductive RouteOutcome where
  /-- Status 413 `Request body too large` (WAF body buffering over the cap). -/
  | payloadTooLarge
  /-- Status 403 `Request blocked by WAF`. -/
  | wafForbidden
  /-- The built-in `/health` endpoint. -/
  | healthEndpoint
  /-- The built-in `/metrics` endpoint. -/
  | metricsEndpoint
  /-- The built-in `/status` endpoint. -/
  | statusEndpoint
  /-- The matched route's rate limiter denied the request. -/
  | rateLimited (pfx : Str)
  /-- Dispatch to the matched route's handler. -/
  | dispatched (pfx : Str) (finalPath : Str) (route : RouteConfig)
  /-- Status 404 `Route not found`. -/
  | notFound
deriving DecidableEq, Repr

/-- The WAF body-inspection cap in `route_request`: 10 MiB. -/
def wafBodyLimit : Nat := 10 * 1024 * 1024

/-- The gateway state `route_request` consults: the snapshot's config, its
WAF engine, and its per-prefix limiters (with each limiter's dynamic allow /
deny decision for this request abstracted as `limiterDenies`). -/
structure GatewayView where
  routes : List (Str × RouteConfig)
  wafEngine : Option WafEngine
  rateLimiters : List (Str × RouteRateLimiterKind)
  limiterDenies : Str → Bool

/-- The `GatewayService::is_waf_enabled`. -/
def GatewayView.isWafEnabled (gw : GatewayView) : Bool :=
  match gw.wafEngine with
  | some e => e.enabled
  | none => false

/-- The `GatewayService::check_waf`: run the engine when one was built. -/
def GatewayView.checkWaf (gw : GatewayView) (parseIp : Str → Option IpAddr)
    (req : WafRequest) (clientIp : Option Str) : Option SecurityViolation :=
  match gw.wafEngine with
  | some engine => engine.checkRequest parseIp req clientIp
  | none => none

/-- The `GatewayService::get_rate_limiter`: per-prefix lookup. -/
def GatewayView.getRateLimiter (gw : GatewayView) (pfx : Str) :
    Option RouteRateLimiterKind :=
  (gw.rateLimiters.find? (fun e => e.1 == pfx)).map (·.2)

/-- The URI in string form as the WAF detectors receive it. -/
def requestUriString (req : InboundRequest) : Str :=
  match req.query with
  | some q => req.path ++ '?' :: q
  | none => req.path

/-- The `HttpHandler::route_request`: WAF first (body cap 413, blocked violation
403) when enabled, then the three built-in endpoints by exact path, then
route matching, rate limiting, middlewares and dispatch, else 404. -/
def routeRequest (parseIp : Str → Option IpAddr) (gw : GatewayView)
    (req : InboundRequest) : RouteOutcome :=
  let wafShortCircuit : Option RouteOutcome :=
    if gw.isWafEnabled then
      if wafBodyLimit < req.bodyLen then some .payloadTooLarge
      else
        let wafReq : WafRequest :=
          { uri := requestUriString req, headers := req.headers, body := some [] }
        match gw.checkWaf parseIp wafReq req.clientIp with
        | some violation =>
          if violation.blocked then some .wafForbidden else none
        | none => none
    else none
  match wafShortCircuit with
  | some outcome => outcome
  | none =>
    if req.path == "/health".data then .healthEndpoint
    else if req.path == "/metrics".data then .metricsEndpoint
    else if req.path == "/status".data then .statusEndpoint
    else
      let routeHost := extractRoutingHost req.headers
      match findMatchingRoute gw.routes req.path routeHost with
      | some (pfx, routeConfig) =>
        match gw.getRateLimiter pfx with
        | some _ =>
          if gw.limiterDenies pfx then .rateLimited pfx
          else
            .dispatched pfx
              (applyMiddlewares pfx routeConfig.middlewares req.path)
              routeConfig
        | none =>
          .dispatched pfx
            (applyMiddlewares pfx routeConfig.middlewares req.path)
            routeConfig
      | none => .notFound

/-! ## Gateway snapshot build and the config-watcher step (src/main.rs)

`GatewayService::new` eagerly builds the backend-health keys and the
per-prefix limiters from a loaded config.  The config-watcher task reacts to
a change signal by loading the config from the provider and, whenever the
load itself succeeds, immediately storing the new config and a freshly built
`GatewayService` — there is no call into `ServerConfigValidator` on this
path; only a load (parse/deserialize) failure keeps the old state. -/

/-- The result of `GatewayService::new` that the watcher stores. -/
structure GatewaySnapshot where
  config : ServerConfig
  backendKeys : List Str
  rateLimiters : List (Str × RouteRateLimiterKind)
deriving DecidableEq, Repr

/-- The `GatewayService::new` (the data it derives from the config). -/
def GatewaySnapshot.new (parseDuration : Str → Option Nat)
    (config : ServerConfig) : GatewaySnapshot :=
  { config
    backendKeys := registryKeys config.routes
    rateLimiters := buildRateLimiters parseDuration config.routes }

/-- The watcher-owned state: the current config holder, the current gateway
holder, and whether a health-checker task is running. -/
structure WatcherState where
  config : ServerConfig
  gateway : GatewaySnapshot
  healthCheckerRunning : Bool
deriving DecidableEq, Repr

/-- One iteration of the config-watcher loop body after the debounce, given
the outcome of `load_config`: an `Err` keeps every piece of state; an `Ok`
stores the new config, stores a new `GatewayService`, aborts the old health
checker and starts a new one iff the new config enables health checks.  No
validation happens on either branch. -/
def watcherStep (parseDuration : Str → Option Nat) (st : WatcherState)
    (loadResult : Except Str ServerConfig) : WatcherState :=
  match loadResult with
  | .error _ => st
  | .ok newConfig =>
    { config := newConfig
      gateway := GatewaySnapshot.new parseDuration newConfig
      healthCheckerRunning := newConfig.healthCheck.enabled }

/-! ## Spec-side definitions

Definitions in this section follow the specification's words (not the
source); they exist to be compared with the source-derived definitions
above. -/

/-- Spec §4.2: the union of `target` (Proxy, WebSocket) and `targets`
(LoadBalance) across all routes — the backend set the spec says the health
registry is built from. -/
def specBackendUnion (routes : List (Str × RouteConfig)) : List Str :=
  routes.flatMap fun pr =>
    match pr.2 with
    | .proxy target _ _ _ _ => [target]
    | .websocket target _ _ _ _ _ _ _ _ => [target]
    | .loadBalance targets _ _ _ _ _ => targets
    | _ => []

/-- Spec §4.8 step 1, written from the spec's words: `base` is
`path_rewrite` without its trailing `/`; a remainder that is empty or `/`
yields the base (or `/` when the rewrite is `/` itself); otherwise
`base + '/' + remainder` with the remainder's leading `/` removed and an
empty base treated as `/`. -/
def specRewrittenPath (rewrite remainingPath : Str) : Str :=
  let base := dropTrailingSlashes rewrite
  if remainingPath.isEmpty || remainingPath == "/".data then
    if rewrite == "/".data then "/".data else base
  else
    let remaining := trimStartSlashes remainingPath
    if base.isEmpty then '/' :: remaining
    else base ++ '/' :: remaining

/-! ## Helper lemmas -/

/-- The `dropTrailingSlashes` keeps the head character of its input whenever the
result is non-empty. -/
theorem dropTrailingSlashes_head (c : Char) (cs : Str) :
    dropTrailingSlashes (c :: cs) = [] ∨
      ∃ r, dropTrailingSlashes (c :: cs) = c :: r := by
  simp only [dropTrailingSlashes]
  cases h : dropTrailingSlashes cs with
  | nil =>
    by_cases hc : c == '/'
    · simp [hc]
    · simp [hc]
  | cons r rs => right; exact ⟨r :: rs, rfl⟩

/-- The `dropTrailingSlashes` never returns the one-character string `/`
(its result never ends in `/`). -/
theorem dropTrailingSlashes_ne_slash (s : Str) :
    dropTrailingSlashes s ≠ ['/'] := by
  induction s with
  | nil => simp [dropTrailingSlashes]
  | cons c cs ih =>
    simp only [dropTrailingSlashes]
    cases h : dropTrailingSlashes cs with
    | nil =>
      have hc' : c ≠ '/' ∨ c = '/' := (ne_or_eq c '/')
      by_cases hc : c == '/'
      · simp [hc]
      · have hne : c ≠ '/' := by simpa using hc
        simp [hne]
    | cons r rs =>
      intro hcontra
      have h2 : r :: rs = [] := (List.cons.inj hcontra).2
      simp at h2

/-- Membership passes through `insertLe`. -/
theorem mem_insertLe (x y : Str) (l : List Str) :
    y ∈ insertLe x l ↔ y = x ∨ y ∈ l := by
  induction l with
  | nil => simp [insertLe]
  | cons z zs ih =>
    simp only [insertLe]
    cases hxz : lexLe x z with
    | true =>
      simp only [if_true, List.mem_cons]
    | false =>
      simp only [Bool.false_eq_true, if_false, List.mem_cons, ih]
      tauto

/-- Membership passes through `sortStrs`. -/
theorem mem_sortStrs (y : Str) (l : List Str) :
    y ∈ sortStrs l ↔ y ∈ l := by
  induction l with
  | nil => simp [sortStrs]
  | cons x xs ih => simp [sortStrs, mem_insertLe, ih]

/-- Membership passes through `dedupAdjacent`. -/
theorem mem_dedupAdjacent (y : Str) (l : List Str) :
    y ∈ dedupAdjacent l ↔ y ∈ l := by
  induction l with
  | nil => simp [dedupAdjacent]
  | cons x xs ih =>
    cases xs with
    | nil => simp [dedupAdjacent]
    | cons z zs =>
      simp only [dedupAdjacent]
      cases hxz : x == z with
      | true =>
        have heq : x = z := by simpa using hxz
        simp only [if_true, ih]
        subst heq
        simp
      | false =>
        simp only [Bool.false_eq_true, if_false, List.mem_cons, ih]

/-- The `maxByPrefixLen` returns `none` exactly on the empty list. -/
theorem maxByPrefixLen_eq_none (l : List (Str × RouteConfig)) :
    maxByPrefixLen l = none ↔ l = [] := by
  cases l with
  | nil => simp [maxByPrefixLen]
  | cons x xs =>
    simp only [maxByPrefixLen]
    cases h : maxByPrefixLen xs with
    | none => simp
    | some m =>
      by_cases hlt : m.1.length < x.1.length
      · simp [hlt]
      · simp [hlt]

/-- The `maxByPrefixLen` returns an element of the list whose prefix length is
maximal in the list. -/
theorem maxByPrefixLen_spec (l : List (Str × RouteConfig))
    (m : Str × RouteConfig) (h : maxByPrefixLen l = some m) :
    m ∈ l ∧ ∀ x ∈ l, x.1.length ≤ m.1.length := by
  induction l generalizing m with
  | nil => simp [maxByPrefixLen] at h
  | cons x xs ih =>
    simp only [maxByPrefixLen] at h
    cases hxs : maxByPrefixLen xs with
    | none =>
      simp only [hxs] at h
      have hx : x = m := by simpa using h
      subst hx
      have hempty : xs = [] := (maxByPrefixLen_eq_none xs).1 hxs
      subst hempty
      simp
    | some m' =>
      simp only [hxs] at h
      obtain ⟨hmem', hmax'⟩ := ih m' hxs
      by_cases hlt : m'.1.length < x.1.length
      · rw [if_pos hlt] at h
        have hx : x = m := by simpa using h
        subst hx
        refine ⟨List.mem_cons_self _ _, ?_⟩
        intro y hy
        rcases List.mem_cons.1 hy with hy | hy
        · exact hy ▸ le_refl _
        · exact le_of_lt (lt_of_le_of_lt (hmax' y hy) hlt)
      · rw [if_neg hlt] at h
        have hm : m' = m := by simpa using h
        subst hm
        refine ⟨List.mem_cons_of_mem _ hmem', ?_⟩
        intro y hy
        rcases List.mem_cons.1 hy with hy | hy
        · exact hy ▸ Nat.le_of_not_lt hlt
        · exact hmax' y hy

/-- Every element returned by `List.get?` is a member. -/
theorem mem_of_get? {α : Type} (l : List α) (i : Nat) (x : α)
    (h : l.get? i = some x) : x ∈ l := by
  induction l generalizing i with
  | nil => simp [List.get?] at h
  | cons y ys ih =>
    cases i with
    | zero => simp_all [List.get?]
    | succ n =>
      simp only [List.get?] at h
      exact List.mem_cons_of_mem _ (ih n h)

/-- The `LeastConnections` loop only ever returns the running best or a
member of the remaining list. -/
theorem leastConnectionsLoop_mem (m : BackendHealthMap) (l : List Str)
    (best : Option Str) (minConns : Nat) (b : Str)
    (h : leastConnectionsLoop m l best minConns = some b) :
    best = some b ∨ b ∈ l := by
  induction l generalizing best minConns with
  | nil => simp_all [leastConnectionsLoop]
  | cons x xs ih =>
    simp only [leastConnectionsLoop] at h
    cases hx : healthLookup m x with
    | some hState =>
      simp only [hx] at h
      by_cases hlt : hState.activeConnections < minConns
      · rw [if_pos hlt] at h
        rcases ih _ _ h with hbest | hmem
        · right; exact List.mem_cons.2 (Or.inl (by simpa using hbest.symm))
        · right; exact List.mem_cons_of_mem _ hmem
      · rw [if_neg hlt] at h
        rcases ih _ _ h with hbest | hmem
        · left; exact hbest
        · right; exact List.mem_cons_of_mem _ hmem
    | none =>
      simp only [hx] at h
      rcases ih _ _ h with hbest | hmem
      · left; exact hbest
      · right; exact List.mem_cons_of_mem _ hmem

/-! ## Claims -/

/-- C10: for every client-IP string that does not parse as an IPv4 or IPv6
address, `IpFilter::check_ip` reports no violation — the request passes the
IP filter even when a non-empty whitelist is configured (the filter, its
lists and the parser are universally quantified). -/
theorem C10_unparseable_ip_passes (parseIp : Str → Option IpAddr)
    (f : IpFilter) (ipStr : Str) (h : parseIp ipStr = none) :
    f.checkIp parseIp ipStr = none := by
  unfold IpFilter.checkIp
  cases hf : f.enabled with
  | false => simp
  | true => simp [h]

/-- C10 witness: an enabled filter with a non-empty whitelist still passes
the string `not-an-ip` when the parser rejects it. -/
theorem C10_unparseable_ip_passes_witness :
    IpFilter.checkIp (fun _ => none)
      ⟨[⟨.v4 0x7F000001, 32⟩], [⟨.v4 0x0A000001, 32⟩], true⟩
      "not-an-ip".data = none :=
  C10_unparseable_ip_passes (fun _ => none) _ _ rfl

/-- C4 (code bug): the health-check configuration and probe sequence of the
repository's own `test_handle_health_check_success` (healthy_threshold 2,
backend marked Unhealthy, then two probe successes).  The transition tick
runs `mark_healthy`, which increments `consecutive_successes` a second time
on top of the handler's own `fetch_add`, so the counter ends at 3 — the
claim (one increment per probe success) and the repository's test (which
asserts 2) both expect 2. -/
theorem C4_success_counter_double_incremented :
    (handleHealthCheckSuccess
        ⟨true, 30, 5, "/health".data, 3, 2⟩
        (handleHealthCheckSuccess
          ⟨true, 30, 5, "/health".data, 3, 2⟩
          (markUnhealthy BackendHealthState.init))).consecutiveSuccesses = 3 ∧
    (handleHealthCheckSuccess
        ⟨true, 30, 5, "/health".data, 3, 2⟩
        (handleHealthCheckSuccess
          ⟨true, 30, 5, "/health".data, 3, 2⟩
          (markUnhealthy BackendHealthState.init))).status = .healthy ∧
    ¬(handleHealthCheckSuccess
        ⟨true, 30, 5, "/health".data, 3, 2⟩
        (handleHealthCheckSuccess
          ⟨true, 30, 5, "/health".data, 3, 2⟩
          (markUnhealthy BackendHealthState.init))).consecutiveSuccesses = 2 := by
  decide

/-- The external validator checks used by concrete counterexamples: every
listen address, URL, path and hostname passes (the configs involved only
contain genuinely well-formed values of these kinds, so the permissive
instantiation is conservative). -/
def extAllOk : ValidatorExternals :=
  { sockAddrOk := fun _ => true
    urlParse := fun url =>
      if strStartsWith url "https://".data then some ⟨"https".data, true⟩
      else if strStartsWith url "http://".data then some ⟨"http".data, true⟩
      else if strStartsWith url "wss://".data then some ⟨"wss".data, true⟩
      else if strStartsWith url "ws://".data then some ⟨"ws".data, true⟩
      else none
    pathExists := fun _ => true
    hostRegexOk := fun _ => true }

/-- The `humantime::parse_duration` restricted to the simple `Ns`/`Nm`/`Nh`
shapes used by the concrete configurations in this file. -/
def parseDurationSimple (s : Str) : Option Nat :=
  if periodMatches s then some 1000000000 else none

/-- A valid baseline configuration: one host-less proxy route at `/`. -/
def cfgGood : ServerConfig :=
  { listenAddr := "127.0.0.1:8080".data
    routes := [("/".data, .proxy "http://localhost:3000".data none none none [])]
    tls := none
    healthCheck := ⟨false, 0, 0, [], 0, 0⟩
    backendHealthPaths := []
    protocols := ⟨true, true, false⟩
    waf := none }

/-- An invalid configuration: same shape, but the route declares a rate
limit with `requests = 0`, which §4.1 rejects. -/
def cfgBadRateLimit : ServerConfig :=
  { listenAddr := "127.0.0.1:8080".data
    routes :=
      [("/".data,
        .proxy "http://localhost:3000".data none none
          (some ⟨.route, none, 0, "1s".data, 429, "Too Many Requests".data,
            .tokenBucket, .allow⟩)
          [])]
    tls := none
    healthCheck := ⟨false, 0, 0, [], 0, 0⟩
    backendHealthPaths := []
    protocols := ⟨true, true, false⟩
    waf := none }

/-- C1 counterexample: a configuration that the §4.1 validator rejects
(`rate_limit.requests = 0`) is nevertheless swapped in by the config-watcher
step as soon as it deserializes: the new snapshot's config *is* the invalid
config and the state did change. -/
theorem C1_invalid_config_swapped_in :
    (ServerConfigValidator.validate extAllOk cfgBadRateLimit).isOk = false ∧
    (watcherStep parseDurationSimple
        ⟨cfgGood, GatewaySnapshot.new parseDurationSimple cfgGood, false⟩
        (.ok cfgBadRateLimit)).config = cfgBadRateLimit ∧
    watcherStep parseDurationSimple
        ⟨cfgGood, GatewaySnapshot.new parseDurationSimple cfgGood, false⟩
        (.ok cfgBadRateLimit) ≠
      ⟨cfgGood, GatewaySnapshot.new parseDurationSimple cfgGood, false⟩ := by
  refine ⟨by decide, by decide, ?_⟩
  decide

/-- C1 amended: on a change signal the watcher only guards the swap with the
load itself — a load error keeps every piece of state, and a successful load
swaps in the new config and a freshly built gateway even when §4.1
validation (never invoked on this path) would reject it. -/
theorem C1_reload_guarded_only_by_load :
    (∀ pd (st : WatcherState) (e : Str), watcherStep pd st (.error e) = st) ∧
    (∀ pd ext (st : WatcherState) (cfg : ServerConfig),
      (ServerConfigValidator.validate ext cfg).isOk = false →
        watcherStep pd st (.ok cfg) =
          ⟨cfg, GatewaySnapshot.new pd cfg, cfg.healthCheck.enabled⟩) := by
  constructor
  · intro pd st e
    rfl
  · intro pd ext st cfg _
    rfl

/-- C1 amended witness: the invalid rate-limit config at the concrete
baseline state. -/
theorem C1_reload_guarded_only_by_load_witness :
    watcherStep parseDurationSimple
        ⟨cfgGood, GatewaySnapshot.new parseDurationSimple cfgGood, false⟩
        (.ok cfgBadRateLimit) =
      ⟨cfgBadRateLimit, GatewaySnapshot.new parseDurationSimple cfgBadRateLimit,
        cfgBadRateLimit.healthCheck.enabled⟩ :=
  C1_reload_guarded_only_by_load.2 parseDurationSimple extAllOk
    ⟨cfgGood, GatewaySnapshot.new parseDurationSimple cfgGood, false⟩
    cfgBadRateLimit (by decide)

/-- Whether a route declares `b` as a Proxy `target` or a LoadBalance
member of `targets` (the two kinds `collect_backends` reads). -/
def proxyLbDeclares (rc : RouteConfig) (b : Str) : Prop :=
  match rc with
  | .proxy target _ _ _ _ => target = b
  | .loadBalance targets _ _ _ _ _ => b ∈ targets
  | _ => False

instance (rc : RouteConfig) (b : Str) : Decidable (proxyLbDeclares rc b) := by
  unfold proxyLbDeclares
  cases rc <;> infer_instance

/-- C6 counterexample: a route table consisting of one WebSocket route.  Its
`target` belongs to the spec's union (`target` of Proxy and WebSocket plus
`targets` of LoadBalance) but `collect_backends` produces nothing, so the
backend registry is empty — the claimed equality fails on WebSocket routes. -/
theorem C6_websocket_target_not_collected :
    "ws://backend:9001".data ∈
      specBackendUnion
        [("/ws".data,
          .websocket "ws://backend:9001".data none none none none none none
            none [])] ∧
    collectBackends
        [("/ws".data,
          .websocket "ws://backend:9001".data none none none none none none
            none [])] = [] ∧
    registryKeys
        [("/ws".data,
          .websocket "ws://backend:9001".data none none none none none none
            none [])] = [] := by
  refine ⟨?_, by decide, by decide⟩
  decide

/-- C6 amended: the backend health registry contains exactly the Proxy
`target`s and LoadBalance `targets` members that `BackendUrl::new` accepts
(i.e. that start with `http://` or `https://`); WebSocket targets are never
included. -/
theorem C6_registry_contents (routes : List (Str × RouteConfig)) (b : Str) :
    b ∈ registryKeys routes ↔
      backendUrlOk b = true ∧ ∃ pr ∈ routes, proxyLbDeclares pr.2 b := by
  unfold registryKeys collectBackends
  rw [List.mem_filter, mem_dedupAdjacent, mem_sortStrs, List.mem_flatMap]
  constructor
  · rintro ⟨⟨⟨p, rc⟩, hmem, hb⟩, hok⟩
    refine ⟨hok, ⟨p, rc⟩, hmem, ?_⟩
    unfold proxyLbDeclares
    cases rc with
    | proxy target rw host rl mws =>
      simp only [List.mem_singleton] at hb
      exact hb.symm
    | loadBalance targets strategy rw host rl mws => exact hb
    | static root host rl mws => simp at hb
    | redirect target sc host rl mws => simp at hb
    | websocket t rw host rl mfs mms its sp mws => simp at hb
  · rintro ⟨hok, ⟨p, rc⟩, hmem, hdecl⟩
    refine ⟨⟨⟨p, rc⟩, hmem, ?_⟩, hok⟩
    unfold proxyLbDeclares at hdecl
    cases rc with
    | proxy target rw host rl mws =>
      simp only [List.mem_singleton]
      exact hdecl.symm
    | loadBalance targets strategy rw host rl mws => exact hdecl
    | static root host rl mws => simp at hdecl
    | redirect target sc host rl mws => simp at hdecl
    | websocket t rw host rl mfs mms its sp mws => simp at hdecl

/-- A configuration whose only route declares a header-keyed rate limit with
no `header_name`. -/
def cfgHeaderNoName : ServerConfig :=
  { listenAddr := "127.0.0.1:8080".data
    routes :=
      [("/api".data,
        .proxy "http://localhost:3000".data none none
          (some ⟨.header, none, 100, "1m".data, 429, "Too Many Requests".data,
            .tokenBucket, .allow⟩)
          [])]
    tls := none
    healthCheck := ⟨false, 0, 0, [], 0, 0⟩
    backendHealthPaths := []
    protocols := ⟨true, true, false⟩
    waf := none }

/-- C9 counterexample: the validator *accepts* a configuration containing a
route whose rate limit is keyed by header but declares no header name —
`validate_rate_limit` only checks `requests` and the period format. -/
theorem C9_validator_accepts_header_without_name :
    (ServerConfigValidator.validate extAllOk cfgHeaderNoName).isOk = true ∧
    ∃ pr ∈ cfgHeaderNoName.routes, ∃ rl, pr.2.rateLimit = some rl ∧
      rl.rlBy = .header ∧ rl.headerName = none := by
  refine ⟨by decide, ?_⟩
  refine ⟨("/api".data,
    .proxy "http://localhost:3000".data none none
      (some ⟨.header, none, 100, "1m".data, 429, "Too Many Requests".data,
        .tokenBucket, .allow⟩) []), ?_, ?_⟩
  · simp [cfgHeaderNoName]
  · exact ⟨_, rfl, rfl, rfl⟩

/-- C9 amended: for a header-keyed rate limit without a header name, the
validator's rate-limit check rejects the configuration iff `requests = 0` or
the period is malformed — the missing header name never rejects it; instead
`RouteRateLimiter::new` always fails for such a config, so
`GatewayService::new` installs no limiter for the route. -/
theorem C9_header_without_name_checked_late (pd : Str → Option Nat)
    (path : Str) (c : RateLimitConfig) (hby : c.rlBy = .header)
    (hname : c.headerName = none) :
    (validateRateLimit path c = [] ↔
      (c.requests ≠ 0 ∧ periodMatches c.period = true)) ∧
    (RouteRateLimiter.new pd c).isOk = false ∧
    (∀ pfx target, buildRateLimiters pd
      [(pfx, .proxy target none none (some c) [])] = []) := by
  have hnew : (RouteRateLimiter.new pd c).isOk = false := by
    unfold RouteRateLimiter.new
    cases hdur : pd c.period with
    | none => rfl
    | some n =>
      by_cases hreq : c.requests % 4294967296 = 0
      · simp [hreq, Except.isOk, Except.toBool]
      · by_cases hsc : statusCodeOk c.statusCode = true
        · simp [hreq, hsc, hby, hname, Except.isOk, Except.toBool]
        · simp [hreq, hsc, Except.isOk, Except.toBool]
  refine ⟨?_, hnew, ?_⟩
  · unfold validateRateLimit
    by_cases hreq : c.requests = 0
    · simp [hreq]
    · by_cases hper : periodMatches c.period
      · simp [hreq, hper]
      · simp [hreq, hper]
  · intro pfx target
    unfold buildRateLimiters
    simp only [List.foldr_cons, List.foldr_nil, RouteConfig.rateLimit]
    cases hn : RouteRateLimiter.new pd c with
    | ok l =>
      rw [hn] at hnew
      simp [Except.isOk, Except.toBool] at hnew
    | error e => simp [hn]

/-- C9 amended witness: the concrete header-keyed, nameless rate limit of
`cfgHeaderNoName`, evaluated at its route. -/
theorem C9_header_without_name_checked_late_witness :
    (validateRateLimit "/api".data
        ⟨.header, none, 100, "1m".data, 429, "Too Many Requests".data,
          .tokenBucket, .allow⟩ = [] ↔
      ((100 : Nat) ≠ 0 ∧ periodMatches "1m".data = true)) ∧
    (RouteRateLimiter.new parseDurationSimple
        ⟨.header, none, 100, "1m".data, 429, "Too Many Requests".data,
          .tokenBucket, .allow⟩).isOk = false ∧
    (∀ pfx target, buildRateLimiters parseDurationSimple
      [(pfx, .proxy target none none
          (some ⟨.header, none, 100, "1m".data, 429,
            "Too Many Requests".data, .tokenBucket, .allow⟩) [])] = []) :=
  C9_header_without_name_checked_late parseDurationSimple "/api".data _ rfl rfl

/-- The `List.get?` is `some` below the length. -/
theorem get?_isSome_of_lt {α : Type} (l : List α) (i : Nat)
    (h : i < l.length) : ∃ x, l.get? i = some x := by
  induction l generalizing i with
  | nil => simp at h
  | cons y ys ih =>
    cases i with
    | zero => exact ⟨y, rfl⟩
    | succ n => exact ih n (Nat.lt_of_succ_lt_succ h)

/-- C3: `find_matching_route` returns a host-matched candidate of maximal
prefix length whenever one exists; otherwise a host-less candidate of
maximal prefix length whenever one exists; otherwise nothing.  The candidate
sets are exactly the claim's: routes whose prefix is a prefix of the path
with the declared host equal to the request host ASCII-case-insensitively
(`hostCandidates`), and prefix-matching routes with no declared host
(`noHostCandidates`). -/
theorem C3_matcher_two_pass_longest
    (routes : List (Str × RouteConfig)) (path : Str) (host : Option Str) :
    (hostCandidates routes path host ≠ [] →
      ∃ pr, findMatchingRoute routes path host = some pr ∧
        pr ∈ hostCandidates routes path host ∧
        ∀ qr ∈ hostCandidates routes path host, qr.1.length ≤ pr.1.length) ∧
    (hostCandidates routes path host = [] →
      noHostCandidates routes path ≠ [] →
      ∃ pr, findMatchingRoute routes path host = some pr ∧
        pr ∈ noHostCandidates routes path ∧
        ∀ qr ∈ noHostCandidates routes path, qr.1.length ≤ pr.1.length) ∧
    (hostCandidates routes path host = [] →
      noHostCandidates routes path = [] →
      findMatchingRoute routes path host = none) := by
  unfold findMatchingRoute
  cases hH : maxByPrefixLen (hostCandidates routes path host) with
  | some m =>
    obtain ⟨hmem, hmax⟩ := maxByPrefixLen_spec _ _ hH
    refine ⟨fun _ => ⟨m, rfl, hmem, hmax⟩, ?_, ?_⟩
    · intro hempty _
      rw [hempty] at hH
      simp [maxByPrefixLen] at hH
    · intro hempty _
      rw [hempty] at hH
      simp [maxByPrefixLen] at hH
  | none =>
    have hHempty : hostCandidates routes path host = [] :=
      (maxByPrefixLen_eq_none _).1 hH
    cases hN : maxByPrefixLen (noHostCandidates routes path) with
    | some m =>
      obtain ⟨hmem, hmax⟩ := maxByPrefixLen_spec _ _ hN
      refine ⟨fun hne => absurd hHempty hne, fun _ _ => ⟨m, rfl, hmem, hmax⟩,
        fun _ hNempty => ?_⟩
      rw [hNempty] at hN
      simp [maxByPrefixLen] at hN
    | none =>
      exact ⟨fun hne => absurd hHempty hne,
        fun _ hne => absurd ((maxByPrefixLen_eq_none _).1 hN) hne,
        fun _ _ => rfl⟩

/-- The two-route table of the spec's host-split scenario: `/` for
`api.example.com` and a host-less `/` fallback. -/
def routesHostSplit : List (Str × RouteConfig) :=
  [("/".data,
    .proxy "http://api-backend:3001".data none (some "api.example.com".data)
      none []),
   ("/".data, .proxy "http://fallback:5555".data none none none [])]

/-- C3 witness: on the host-split table with request host `api.example.com`,
the matcher picks a host-matched candidate of maximal prefix length. -/
theorem C3_matcher_two_pass_longest_witness :
    ∃ pr, findMatchingRoute routesHostSplit "/".data
        (some "api.example.com".data) = some pr ∧
      pr ∈ hostCandidates routesHostSplit "/".data
        (some "api.example.com".data) ∧
      ∀ qr ∈ hostCandidates routesHostSplit "/".data
        (some "api.example.com".data), qr.1.length ≤ pr.1.length :=
  (C3_matcher_two_pass_longest routesHostSplit "/".data
    (some "api.example.com".data)).1 (by decide)

/-- C7: backend selection filters to the healthy subset first (everything
counts as healthy when health checking is disabled), returns `none` exactly
when that subset is empty, and otherwise returns a member of the subset —
for every strategy, round-robin counter value and random draw. -/
theorem C7_select_backend_healthy (enabled : Bool) (m : BackendHealthMap)
    (rr seed : Nat) (targets : List Str)
    (strategy : Option LoadBalanceStrategy) :
    (enabled = false → getHealthyBackends enabled m targets = targets) ∧
    (selectBackend enabled m rr seed targets strategy = none ↔
      getHealthyBackends enabled m targets = []) ∧
    (∀ b, selectBackend enabled m rr seed targets strategy = some b →
      b ∈ getHealthyBackends enabled m targets) := by
  refine ⟨?_, ?_⟩
  · intro hE
    unfold getHealthyBackends
    rw [hE]
    simp
  unfold selectBackend
  cases hl : getHealthyBackends enabled m targets with
  | nil => simp
  | cons x xs =>
    have hlen : 0 < (x :: xs).length := by simp
    cases hs : strategy.getD .roundRobin with
    | roundRobin =>
      obtain ⟨y, hy⟩ := get?_isSome_of_lt (x :: xs) (rr % (x :: xs).length)
        (Nat.mod_lt _ hlen)
      constructor
      · simp only [List.isEmpty_cons, Bool.false_eq_true, if_false, hy]
        simp
      · intro b hb
        simp only [List.isEmpty_cons, Bool.false_eq_true, if_false] at hb
        exact mem_of_get? _ _ _ hb
    | random =>
      obtain ⟨y, hy⟩ := get?_isSome_of_lt (x :: xs) (seed % (x :: xs).length)
        (Nat.mod_lt _ hlen)
      constructor
      · simp only [List.isEmpty_cons, Bool.false_eq_true, if_false, hy]
        simp
      · intro b hb
        simp only [List.isEmpty_cons, Bool.false_eq_true, if_false] at hb
        exact mem_of_get? _ _ _ hb
    | leastConnections =>
      cases hloop : leastConnectionsLoop m (x :: xs) none usizeMax with
      | some best =>
        have hmem : best ∈ x :: xs := by
          rcases leastConnectionsLoop_mem m (x :: xs) none usizeMax best hloop
            with hcontra | hmem
          · simp at hcontra
          · exact hmem
        constructor
        · simp [hloop]
        · intro b hb
          simp only [List.isEmpty_cons, Bool.false_eq_true, if_false,
            hloop] at hb
          have : best = b := by simpa using hb
          exact this ▸ hmem
      | none =>
        constructor
        · simp [hloop]
        · intro b hb
          simp only [List.isEmpty_cons, Bool.false_eq_true, if_false,
            hloop] at hb
          have : x = b := by simpa using hb
          exact this ▸ List.mem_cons_self _ _

/-- C7 witness: with health checking enabled, one healthy and one unhealthy
backend, LeastConnections selection yields a member of the healthy subset. -/
theorem C7_select_backend_healthy_witness :
    "http://a:1".data ∈
      getHealthyBackends true
        [("http://a:1".data, BackendHealthState.init),
         ("http://b:2".data, markUnhealthy BackendHealthState.init)]
        ["http://a:1".data, "http://b:2".data] :=
  (C7_select_backend_healthy true
      [("http://a:1".data, BackendHealthState.init),
       ("http://b:2".data, markUnhealthy BackendHealthState.init)]
      0 0 ["http://a:1".data, "http://b:2".data]
      (some .leastConnections)).2.2 "http://a:1".data (by decide)

/-- C8: for every rewrite declared with a leading `/` (which the validator
requires), the outbound path computed by `proxy_request_to_backend` agrees
with the spec's normalization (base without trailing `/`; base alone — `/`
for the rewrite `/` — when the remainder is empty or `/`; otherwise
`base + '/' + remainder` with the remainder's leading slashes removed and an
empty base treated as `/`); and on the claim's concrete route (`/real` →
`http://b` with rewrite `/x`), `GET /real/foo?q=1` is forwarded to
`http://b/x/foo?q=1` and `GET /real` to `http://b/x`. -/
theorem C8_path_rewrite_agrees_with_spec :
    (∀ rewrite remaining : Str, strStartsWith rewrite "/".data = true →
      rewrittenPathWithRewrite rewrite remaining =
        specRewrittenPath rewrite remaining) ∧
    buildBackendUri "http://b".data
        (rewrittenPath (some "/x".data) "/real".data "/real/foo".data)
        (some "q=1".data) = "http://b/x/foo?q=1".data ∧
    buildBackendUri "http://b".data
        (rewrittenPath (some "/x".data) "/real".data "/real".data) none =
      "http://b/x".data := by
  refine ⟨?_, by decide, by decide⟩
  intro rewrite remaining h
  by_cases hsl : rewrite = "/".data
  · subst hsl
    unfold rewrittenPathWithRewrite specRewrittenPath
    by_cases hrem : (remaining.isEmpty || remaining == "/".data) = true
    · simp [hrem, dropTrailingSlashes]
    · simp [hrem, dropTrailingSlashes]
  · obtain ⟨t, rfl⟩ : ∃ t, rewrite = '/' :: t := by
      cases rewrite with
      | nil => simp [strStartsWith, List.isPrefixOf] at h
      | cons c cs =>
        have hc : c = '/' := by
          simp [strStartsWith, List.isPrefixOf] at h
          exact h.symm
        exact ⟨cs, by rw [hc]⟩
    have hne : ('/' :: t : Str) ≠ "/".data := hsl
    rcases dropTrailingSlashes_head '/' t with hd | ⟨r, hd⟩
    · unfold rewrittenPathWithRewrite specRewrittenPath
      rw [hd]
      have hbne : (('/' :: t : Str) == "/".data) = false := by
        simpa using hne
      by_cases hrem : (remaining.isEmpty || remaining == "/".data) = true
      · simp [hrem, hbne, normaliseLeading]
      · simp [hrem, hbne, normaliseLeading]
    · have hr : r ≠ [] := by
        intro hcontra
        exact dropTrailingSlashes_ne_slash ('/' :: t) (by rw [hd, hcontra])
      unfold rewrittenPathWithRewrite specRewrittenPath
      rw [hd]
      have hbne : (('/' :: t : Str) == "/".data) = false := by
        simpa using hne
      have hnorm : normaliseLeading ('/' :: r) = '/' :: r := by
        simp [normaliseLeading, strStartsWith, List.isPrefixOf]
      have hbase : (('/' :: r : Str) == "/".data) = false := by
        simp
        intro hcontra
        exact hr hcontra
      by_cases hrem : (remaining.isEmpty || remaining == "/".data) = true
      · simp [hrem, hbne, hnorm]
      · simp [hrem, hbne, hnorm, hbase]

/-- C8 witness: rewrite `/x` with remainder `/foo` — the code's rewritten
path and the spec's normalization coincide at a concrete input. -/
theorem C8_path_rewrite_agrees_with_spec_witness :
    rewrittenPathWithRewrite "/x".data "/foo".data =
      specRewrittenPath "/x".data "/foo".data :=
  C8_path_rewrite_agrees_with_spec.1 "/x".data "/foo".data (by decide)

/-- A validated configuration whose proxy route declares the rewrite
`/x y` — non-empty and starting with `/`, so §4.1 accepts it, yet the space
makes the constructed backend URI unparseable. -/
def cfgSpaceRewrite : ServerConfig :=
  { listenAddr := "127.0.0.1:8080".data
    routes :=
      [("/real".data, .proxy "http://b".data (some "/x y".data) none none [])]
    tls := none
    healthCheck := ⟨false, 0, 0, [], 0, 0⟩
    backendHealthPaths := []
    protocols := ⟨true, true, false⟩
    waf := none }

/-- C5 (code bug): on a validated configuration, a request whose constructed
backend URI fails to parse makes `proxy_request_to_backend` return early
through `?` *after* incrementing the chosen backend's `active_connections`
and before the decrement — the net accounting change is `+1`, not `0`, so
the increment is not matched by a decrement on this path.  The URI parser is
instantiated to reject strings containing a space, as `http::Uri` does with
`http://b/x y/foo`. -/
theorem C5_increment_leaks_on_uri_parse_failure :
    (ServerConfigValidator.validate extAllOk cfgSpaceRewrite).isOk = true ∧
    validatePathRewrite "/real".data "/x y".data = [] ∧
    proxyRequestToBackend
        ⟨fun s => !(s.contains ' '), fun _ => true⟩
        cfgSpaceRewrite.routes false
        ((registryKeys cfgSpaceRewrite.routes).map
          (fun b => (b, BackendHealthState.init)))
        0 0
        ⟨"/real/foo".data, none, none, none, none⟩ true =
      (.errUriParse, 1) := by
  refine ⟨by decide, by decide, by decide⟩

/-- The address parser for the concrete WAF scenarios: recognizes exactly
`10.0.0.1`. -/
def parseIpOne (s : Str) : Option IpAddr :=
  if s == "10.0.0.1".data then some (.v4 0x0A000001) else none

/-- A WAF configuration with only the IP filter enabled, blacklisting
`10.0.0.1`. -/
def wafCfgBlacklist : WafConfig :=
  { enabled := true
    sqlInjection := ⟨false, false⟩
    xss := ⟨false, false⟩
    pathTraversal := ⟨false, false⟩
    commandInjection := ⟨false, false⟩
    botDetection := ⟨false, false, false, [], []⟩
    ipFilter := ⟨true, [], ["10.0.0.1".data]⟩ }

/-- The gateway view for the WAF counterexample: the engine built from
`wafCfgBlacklist` over the baseline routes. -/
def gwBlacklist : GatewayView :=
  { routes := cfgGood.routes
    wafEngine :=
      WafEngine.fromConfig parseIpOne (fun _ _ => none) (fun _ _ => none)
        (fun _ _ => none) (fun _ _ => none) (fun _ _ => none) wafCfgBlacklist
    rateLimiters := []
    limiterDenies := fun _ => false }

/-- C2 counterexample: with the WAF enabled, a request whose path is exactly
`/health` from a blacklisted client IP is answered with the WAF's 403, not
by the built-in health endpoint; and a `/health` request whose body exceeds
the 10 MiB cap is answered 413 — both outcomes the claim says can never
happen for these paths. -/
theorem C2_waf_runs_before_builtin_endpoints :
    routeRequest parseIpOne gwBlacklist
        ⟨"/health".data, none, [], 0, some "10.0.0.1".data⟩ =
      .wafForbidden ∧
    routeRequest parseIpOne gwBlacklist
        ⟨"/health".data, none, [], wafBodyLimit + 1, none⟩ =
      .payloadTooLarge ∧
    RouteOutcome.wafForbidden ≠ RouteOutcome.healthEndpoint := by
  refine ⟨by decide, by decide, by decide⟩

/-- C2 amended: the three built-in paths are answered before routing and
rate limiting (so neither a route match, a limiter, nor a 404 is ever
involved), but only after the WAF stage: when the WAF is enabled the
outcome may instead be the 413 body-cap rejection or the 403 WAF block,
and with the WAF disabled (or passing) the built-in endpoint always
answers. -/
theorem C2_builtins_bypass_routing_not_waf (parseIp : Str → Option IpAddr)
    (gw : GatewayView) (req : InboundRequest) :
    (req.path = "/health".data →
      (routeRequest parseIp gw req = .healthEndpoint ∨
        routeRequest parseIp gw req = .payloadTooLarge ∨
        routeRequest parseIp gw req = .wafForbidden) ∧
      (gw.isWafEnabled = false →
        routeRequest parseIp gw req = .healthEndpoint)) ∧
    (req.path = "/metrics".data →
      (routeRequest parseIp gw req = .metricsEndpoint ∨
        routeRequest parseIp gw req = .payloadTooLarge ∨
        routeRequest parseIp gw req = .wafForbidden) ∧
      (gw.isWafEnabled = false →
        routeRequest parseIp gw req = .metricsEndpoint)) ∧
    (req.path = "/status".data →
      (routeRequest parseIp gw req = .statusEndpoint ∨
        routeRequest parseIp gw req = .payloadTooLarge ∨
        routeRequest parseIp gw req = .wafForbidden) ∧
      (gw.isWafEnabled = false →
        routeRequest parseIp gw req = .statusEndpoint)) := by
  refine ⟨fun hpath => ?_, fun hpath => ?_, fun hpath => ?_⟩ <;>
    · constructor
      · by_cases hwaf : gw.isWafEnabled = true
        · by_cases hbody : wafBodyLimit < req.bodyLen
          · right; left
            simp [routeRequest, hwaf, hbody]
          · cases hv : gw.checkWaf parseIp
              ⟨requestUriString req, req.headers, some []⟩ req.clientIp with
            | some violation =>
              cases hblocked : violation.blocked with
              | true =>
                right; right
                simp [routeRequest, hwaf, hbody, hv, hblocked]
              | false =>
                left
                simp [routeRequest, hwaf, hbody, hv, hblocked, hpath]
            | none =>
              left
              simp [routeRequest, hwaf, hbody, hv, hpath]
        · left
          simp only [Bool.not_eq_true] at hwaf
          simp [routeRequest, hwaf, hpath]
      · intro hwaf
        simp [routeRequest, hwaf, hpath]

/-- C2 amended witness: with no WAF configured, the `/health` request is
answered by the built-in health endpoint. -/
theorem C2_builtins_bypass_routing_not_waf_witness :
    routeRequest parseIpOne
        ⟨cfgGood.routes, none, [], fun _ => false⟩
        ⟨"/health".data, none, [], 0, none⟩ =
      .healthEndpoint :=
  ((C2_builtins_bypass_routing_not_waf parseIpOne
      ⟨cfgGood.routes, none, [], fun _ => false⟩
      ⟨"/health".data, none, [], 0, none⟩).1 rfl).2 rfl

end Axon
